import Mathlib

/-
Verification of the signal-propagation kernel (Pin / Trace) of the C64
circuit emulator.  The definitions below are a shallow embedding of
src/components/pin.rs and src/components/trace.rs:

* levels (`f64` in the source) are modelled as `Option ℚ`: the concrete
  levels used by the kernel and its tests (0, 1, 0.25, 0.75, ...) are exact
  rationals and are compared only with `==`, `<` and `max`;
* the shared, internally mutable `Rc<RefCell<...>>` graph is modelled as a
  single `Trace` value holding the list of its pins; a mutation of pin `i`
  or of the trace returns the new whole-trace state;
* a pin's `trace : Option<TraceRef>` link is modelled by the Boolean field
  `connected` (`self.trace.is_some()`), since all pins considered live on
  the one trace being modelled;
* the `try_borrow` / `try_borrow_mut` failures that exclude a mid-mutation
  pin from `Trace::calculate`'s scan and from `Trace::update`'s push loop
  are modelled by passing that pin's index explicitly and skipping it;
* a pin's observing device is modelled as a passive recorder (`Observer`),
  exactly the `TestDevice` of the repository's own pin/trace test suites:
  its `update` increments a counter and stores the level carried by the
  `LevelChange` event (the notifying pin's just-updated level).
-/

namespace C64

/-- Direction mode of a pin (enum `Mode` in pin.rs). -/
inductive Mode where
  | Unconnected
  | Input
  | Output
  | Bidirectional
deriving DecidableEq, Repr

/-- Passive observing device, modelled on the `TestDevice` used by the
repository's pin and trace tests: `Device::update` bumps a call counter and
records the level of the pin carried by the `LevelChange` event. -/
structure Observer where
  count : Nat
  lvl : Option ℚ
deriving DecidableEq, Repr

/-- A pin (struct `Pin` in pin.rs).  `connected` models `trace.is_some()`. -/
structure Pin where
  number : Nat
  name : String
  mode : Mode
  level : Option ℚ
  float : Option ℚ
  connected : Bool
  device : Option Observer
deriving DecidableEq, Repr

/-- `normalize` from pin.rs: returns `level` unless it is `None`, in which
case `float` is returned. -/
def normalize (level float : Option ℚ) : Option ℚ :=
  match level with
  | none => float
  | some _ => level

/-- `Pin::input`: the pin is input-capable (mode `Input` or `Bidirectional`). -/
def Pin.input (p : Pin) : Bool :=
  match p.mode with
  | .Input | .Bidirectional => true
  | _ => false

/-- `Pin::output`: the pin is output-capable (mode `Output` or `Bidirectional`). -/
def Pin.output (p : Pin) : Bool :=
  match p.mode with
  | .Output | .Bidirectional => true
  | _ => false

/-- `Pin::floating`: the pin has no defined level. -/
def Pin.floating (p : Pin) : Bool := p.level.isNone

/-- Delivery of one `LevelChange` event to the observer: the `TestDevice`
increments its counter and records the notifying pin's current level
(`Pin::notify` in pin.rs builds the event from `&self` after the level was
written). -/
def Pin.notify (p : Pin) : Pin :=
  { p with device := p.device.map fun d => { count := d.count + 1, lvl := p.level } }

/-- `Pin::update` from pin.rs: normalizes the incoming level against the
pin's float; if the pin is input-capable and the normalized value differs
from the current level, the level is written and the observer notified,
otherwise nothing happens. -/
def Pin.update (p : Pin) (level : Option ℚ) : Pin :=
  let newLevel := normalize level p.float
  if p.input ∧ newLevel ≠ p.level then
    Pin.notify { p with level := newLevel }
  else p

/-- `Pin::pull_up` (pin-local; it does not touch the trace). -/
def Pin.pullUp (p : Pin) : Pin :=
  { p with float := some 1, level := normalize p.level (some 1) }

/-- `Pin::pull_down` (pin-local; it does not touch the trace). -/
def Pin.pullDown (p : Pin) : Pin :=
  { p with float := some 0, level := normalize p.level (some 0) }

/-- `Pin::pull_off` (pin-local; it does not touch the trace). -/
def Pin.pullOff (p : Pin) : Pin :=
  { p with float := none, level := normalize p.level none }

/-- A trace (struct `Trace` in trace.rs). -/
structure Trace where
  pins : List Pin
  float : Option ℚ
  level : Option ℚ
deriving DecidableEq, Repr

/-- `Trace::new`: the constructor stores the pins and sets both `float` and
`level` to `None`; no aggregation over the supplied pins happens here. -/
def Trace.new (pins : List Pin) : Trace :=
  { pins := pins, float := none, level := none }

/-- The filter inside `Trace::calculate`: walk the pin vector with its
index, drop the pin whose `try_borrow` fails (the mid-mutation pin, whose
index is passed as `excl`), and keep the levels of the pins with
`mode() == Mode::Output && !floating()`. -/
def driverLevelsAux (excl : Option Nat) : Nat → List Pin → List ℚ
  | _, [] => []
  | i, p :: ps =>
    if some i = excl then driverLevelsAux excl (i + 1) ps
    else if p.mode = .Output then
      match p.level with
      | some l => l :: driverLevelsAux excl (i + 1) ps
      | none => driverLevelsAux excl (i + 1) ps
    else driverLevelsAux excl (i + 1) ps

/-- Levels of the pins that `Trace::calculate` scans as drivers. -/
def Trace.driverLevels (t : Trace) (excl : Option Nat) : List ℚ :=
  driverLevelsAux excl 0 t.pins

/-- Value of `max_by` over the filtered driver levels (`None` iff the
filtered set is empty). -/
def maxLevel : List ℚ → Option ℚ
  | [] => none
  | l :: ls =>
    match maxLevel ls with
    | none => some l
    | some m => some (max l m)

/-- `Trace::calculate` from trace.rs: if the filtered driver set is
non-empty its maximum wins, except that a pin-originated (`from_pin`)
defined incoming level larger than that maximum wins instead; if the set is
empty the incoming level is used, falling back to the trace's float when the
incoming level is `None`. -/
def Trace.calculate (t : Trace) (excl : Option Nat) (level : Option ℚ) (fromPin : Bool) :
    Option ℚ :=
  match maxLevel (t.driverLevels excl) with
  | some plevel =>
    if fromPin then
      match level with
      | some ilevel => if plevel < ilevel then some ilevel else some plevel
      | none => some plevel
    else some plevel
  | none =>
    match level with
    | some _ => level
    | none => t.float

/-- The push loop of `Trace::update`: every pin whose `try_borrow_mut`
succeeds (every pin except the mid-mutation one at index `excl`) receives
`Pin::update` with the raw value that was passed to `Trace::update`. -/
def updatePinsAux (excl : Nat) (v : Option ℚ) : Nat → List Pin → List Pin
  | _, [] => []
  | i, p :: ps =>
    (if i = excl then p else p.update v) :: updatePinsAux excl v (i + 1) ps

/-- `Trace::update` from trace.rs, as invoked by the pin at index `i` (the
method is `pub(super)` and is reachable only from `Pin::set_level` and
`Pin::set_mode`, which hold the pin's mutable borrow): the level becomes
`calculate(level, from_pin = true)` with pin `i` excluded from the scan, and
the raw incoming `level` (not the computed aggregate) is pushed to every
other pin's `update`. -/
def Trace.update (t : Trace) (i : Nat) (level : Option ℚ) : Trace :=
  { t with
    level := t.calculate (some i) level true,
    pins := updatePinsAux i level 0 t.pins }

/-- `Trace::set_level` from trace.rs (the direct, non-pin-originated path):
the level becomes `calculate(level, from_pin = false)` with no pin excluded,
and the newly computed `self.level` is pushed to every pin's `update`. -/
def Trace.setLevel (t : Trace) (level : Option ℚ) : Trace :=
  let newLevel := t.calculate none level false
  { t with level := newLevel, pins := t.pins.map fun p => p.update newLevel }

/-- `Trace::pull_up`: sets `float` to 1.0 and re-runs `set_level` at the
current level. -/
def Trace.pullUp (t : Trace) : Trace :=
  let t1 : Trace := { t with float := some 1 }
  t1.setLevel t1.level

/-- `Trace::pull_down`: sets `float` to 0.0 and re-runs `set_level` at the
current level. -/
def Trace.pullDown (t : Trace) : Trace :=
  let t1 : Trace := { t with float := some 0 }
  t1.setLevel t1.level

/-- `Trace::pull_off`: clears `float` and re-runs `set_level` at the current
level. -/
def Trace.pullOff (t : Trace) : Trace :=
  let t1 : Trace := { t with float := none }
  t1.setLevel t1.level

/-- `Trace::add_pin`: appends the pin only if it is not already connected to
a trace, then re-runs `set_level` at the current level; otherwise a silent
no-op. -/
def Trace.addPin (t : Trace) (pin : Pin) : Trace :=
  if pin.connected = false then
    let t1 : Trace := { t with pins := t.pins ++ [pin] }
    t1.setLevel t1.level
  else t

/-- Replacing the state of the pin at index `i` (writing back through the
pin's `RefCell`). -/
def Trace.setPin (t : Trace) (i : Nat) (p : Pin) : Trace :=
  { t with pins := t.pins.set i p }

/-- `Pin::set_level` from pin.rs, for the pin at index `i` of trace `t`.
With no trace (`connected = false`) the level is simply normalized; with a
trace the behaviour depends on the mode: `Unconnected` normalizes with no
trace interaction, `Input` ignores the request, `Output`/`Bidirectional`
push the normalized value through `Trace::update` (during which the pin's
own borrow is held, so the trace skips it) and then store it as the pin's
level. -/
def pinSetLevel (t : Trace) (i : Nat) (level : Option ℚ) : Trace :=
  match t.pins[i]? with
  | none => t
  | some p =>
    if p.connected = false then t.setPin i { p with level := normalize level p.float }
    else
      match p.mode with
      | .Unconnected => t.setPin i { p with level := normalize level p.float }
      | .Input => t
      | .Output | .Bidirectional =>
        let normalized := normalize level p.float
        (t.update i normalized).setPin i { p with level := normalized }

/-- `Pin::set_mode` from pin.rs, for the pin at index `i` of trace `t`.
The mode is written first.  With a trace: switching into
`Output`/`Bidirectional` pushes the pin's current level through
`Trace::update`; switching into `Input` adopts `normalize(trace.level(),
float)` (read before any recomputation) and, like `Unconnected`, tells the
trace the old driver's value is gone (`update(None)`) when the old mode was
`Output`/`Bidirectional` and the old level was defined. -/
def pinSetMode (t : Trace) (i : Nat) (mode : Mode) : Trace :=
  match t.pins[i]? with
  | none => t
  | some p =>
    if p.connected = false then t.setPin i { p with mode := mode }
    else
      match mode with
      | .Output | .Bidirectional =>
        (t.setPin i { p with mode := mode }).update i p.level
      | .Input | .Unconnected =>
        let newLevel := if mode = .Input then normalize t.level p.float else p.level
        let t1 := t.setPin i { p with mode := mode, level := newLevel }
        if p.level.isSome ∧ (p.mode = .Output ∨ p.mode = .Bidirectional) then
          t1.update i none
        else t1

/-- `Pin::pull_up` for the pin at index `i` of trace `t` (the pin pulls do
not interact with the trace). -/
def pinPullUp (t : Trace) (i : Nat) : Trace :=
  match t.pins[i]? with
  | none => t
  | some p => t.setPin i p.pullUp

/-- `Pin::pull_down` for the pin at index `i` of trace `t`. -/
def pinPullDown (t : Trace) (i : Nat) : Trace :=
  match t.pins[i]? with
  | none => t
  | some p => t.setPin i p.pullDown

/-- `Pin::pull_off` for the pin at index `i` of trace `t`. -/
def pinPullOff (t : Trace) (i : Nat) : Trace :=
  match t.pins[i]? with
  | none => t
  | some p => t.setPin i p.pullOff

/-- Maximum driver level seen by a full, unexcluded scan of the trace. -/
def Trace.maxDriver (t : Trace) : Option ℚ :=
  maxLevel (t.driverLevels none)

/-- The aggregation invariant on a trace state: whenever some pin is in
`Output` mode with a defined level, the trace's level is the maximum of
those levels. -/
def Trace.driverInv (t : Trace) : Prop :=
  t.driverLevels none ≠ [] → t.level = t.maxDriver

/-- Modelled from the spec: the spec's driver set for the aggregation
invariant, "all of its pins currently in Output/Bidirectional mode with a
defined level".  Kept separate from `driverLevels` (the source's filter,
which keeps `Output` only) so the two can be compared. -/
def Trace.specDriverLevels (t : Trace) : List ℚ :=
  t.pins.filterMap fun p =>
    match p.mode, p.level with
    | .Output, some l => some l
    | .Bidirectional, some l => some l
    | _, _ => none

end C64

namespace C64

/-! Proof infrastructure: auxiliary notions used to state and prove facts
about the driver scan and the push loop. -/

/-- Merge of two optional levels by maximum (`none` is the unit). -/
def optMax : Option ℚ → Option ℚ → Option ℚ
  | none, b => b
  | some x, none => some x
  | some x, some y => some (max x y)

/-- Contribution of one pin to the driver scan. -/
def contribOpt (p : Pin) : Option ℚ :=
  if p.mode = .Output then p.level else none

theorem maxLevel_cons (l : ℚ) (ls : List ℚ) :
    maxLevel (l :: ls) = optMax (some l) (maxLevel ls) := by
  cases h : maxLevel ls <;> simp [maxLevel, optMax, h]

theorem maxLevel_eq_none_iff (ls : List ℚ) : maxLevel ls = none ↔ ls = [] := by
  cases ls with
  | nil => simp [maxLevel]
  | cons l ls => rw [maxLevel_cons]; cases maxLevel ls <;> simp [optMax]

theorem optMax_left_comm (a b c : Option ℚ) :
    optMax a (optMax b c) = optMax b (optMax a c) := by
  cases a <;> cases b <;> cases c <;>
    simp [optMax, max_left_comm, max_comm]

theorem Pin.update_mode (p : Pin) (v : Option ℚ) : (p.update v).mode = p.mode := by
  unfold Pin.update Pin.notify
  dsimp only
  split <;> rfl

theorem Pin.update_not_input (p : Pin) (v : Option ℚ) (h : p.input = false) :
    p.update v = p := by
  unfold Pin.update
  rw [if_neg]
  simp [h]

theorem contribOpt_update (p : Pin) (v : Option ℚ) :
    contribOpt (p.update v) = contribOpt p := by
  by_cases hm : p.mode = .Output
  · rw [Pin.update_not_input p v (by simp [Pin.input, hm])]
  · unfold contribOpt
    rw [Pin.update_mode, if_neg hm, if_neg hm]

end C64

namespace C64

theorem dla_cons (excl : Option Nat) (i : Nat) (p : Pin) (ps : List Pin) :
    driverLevelsAux excl i (p :: ps) =
      if some i = excl then driverLevelsAux excl (i + 1) ps
      else if p.mode = .Output then
        match p.level with
        | some l => l :: driverLevelsAux excl (i + 1) ps
        | none => driverLevelsAux excl (i + 1) ps
      else driverLevelsAux excl (i + 1) ps := rfl

theorem updatePinsAux_cons (e : Nat) (v : Option ℚ) (i : Nat) (p : Pin) (ps : List Pin) :
    updatePinsAux e v i (p :: ps) =
      (if i = e then p else p.update v) :: updatePinsAux e v (i + 1) ps := rfl

theorem dla_cons_congr (excl : Option Nat) (i : Nat) (p q : Pin) (ps qs : List Pin)
    (hmode : q.mode = p.mode) (hlev : p.mode = .Output → q.level = p.level)
    (hrec : driverLevelsAux excl (i + 1) qs = driverLevelsAux excl (i + 1) ps) :
    driverLevelsAux excl i (q :: qs) = driverLevelsAux excl i (p :: ps) := by
  rw [dla_cons, dla_cons, hmode, hrec]
  by_cases he : some i = excl
  · rw [if_pos he, if_pos he]
  · rw [if_neg he, if_neg he]
    by_cases hm : p.mode = .Output
    · rw [if_pos hm, if_pos hm, hlev hm]
    · rw [if_neg hm, if_neg hm]

theorem dla_map_update (ps : List Pin) (excl : Option Nat) (v : Option ℚ) (k : Nat) :
    driverLevelsAux excl k (ps.map fun p => p.update v) = driverLevelsAux excl k ps := by
  induction ps generalizing k with
  | nil => rfl
  | cons p ps ih =>
    simp only [List.map_cons]
    exact dla_cons_congr excl k p (p.update v) ps _ (Pin.update_mode p v)
      (fun hm => by rw [Pin.update_not_input p v (by simp [Pin.input, hm])])
      (ih (k + 1))

theorem dla_updatePinsAux (ps : List Pin) (excl : Option Nat) (e : Nat) (v : Option ℚ)
    (k : Nat) : driverLevelsAux excl k (updatePinsAux e v k ps) = driverLevelsAux excl k ps := by
  induction ps generalizing k with
  | nil => rfl
  | cons p ps ih =>
    rw [updatePinsAux_cons]
    by_cases hk : k = e
    · rw [if_pos hk]
      exact dla_cons_congr excl k p p ps _ rfl (fun _ => rfl) (ih (k + 1))
    · rw [if_neg hk]
      exact dla_cons_congr excl k p (p.update v) ps _ (Pin.update_mode p v)
        (fun hm => by rw [Pin.update_not_input p v (by simp [Pin.input, hm])])
        (ih (k + 1))

theorem dla_excl_lt (ps : List Pin) (j : Nat) (k : Nat) (h : j < k) :
    driverLevelsAux (some j) k ps = driverLevelsAux none k ps := by
  induction ps generalizing k with
  | nil => rfl
  | cons p ps ih =>
    rw [dla_cons, dla_cons, if_neg (by simp; omega : ¬(some k = some j)),
      if_neg (by simp : ¬(some k = (none : Option Nat))), ih (k + 1) (by omega)]

theorem dla_set_excl (ps : List Pin) (k i e : Nat) (he : e = k + i) (q : Pin) :
    driverLevelsAux (some e) k (ps.set i q) = driverLevelsAux (some e) k ps := by
  induction ps generalizing k i with
  | nil => simp
  | cons p ps ih =>
    cases i with
    | zero =>
      have hex : some k = some e := by simp [he]
      rw [List.set_cons_zero, dla_cons, dla_cons, if_pos hex, if_pos hex]
    | succ i =>
      rw [List.set_cons_succ]
      exact dla_cons_congr (some e) k p p ps _ rfl (fun _ => rfl)
        (ih (k + 1) i (by omega))

theorem length_updatePinsAux (ps : List Pin) (e : Nat) (v : Option ℚ) (k : Nat) :
    (updatePinsAux e v k ps).length = ps.length := by
  induction ps generalizing k <;> simp [updatePinsAux, *]

theorem updatePinsAux_getElem? (ps : List Pin) (e : Nat) (v : Option ℚ) (k j : Nat) :
    (updatePinsAux e v k ps)[j]? =
      ps[j]?.map fun p => if k + j = e then p else p.update v := by
  induction ps generalizing k j with
  | nil => simp [updatePinsAux]
  | cons p ps ih =>
    cases j with
    | zero => simp [updatePinsAux]
    | succ j =>
      rw [updatePinsAux_cons]
      simp only [List.getElem?_cons_succ, ih (k + 1) j, Nat.add_succ, Nat.succ_add]

theorem updatePinsAux_set_excl (ps : List Pin) (k i e : Nat) (he : e = k + i)
    (v : Option ℚ) (q : Pin) :
    (updatePinsAux e v k ps).set i q = updatePinsAux e v k (ps.set i q) := by
  induction ps generalizing k i with
  | nil => simp [updatePinsAux]
  | cons p ps ih =>
    cases i with
    | zero =>
      have hk : k = e := by omega
      rw [List.set_cons_zero, updatePinsAux_cons, updatePinsAux_cons, if_pos hk,
        List.set_cons_zero, if_pos hk]
    | succ i =>
      rw [List.set_cons_succ, updatePinsAux_cons, updatePinsAux_cons,
        List.set_cons_succ, ih (k + 1) i (by omega)]

theorem maxLevel_dla_updatePins (ps : List Pin) (k i e : Nat) (he : e = k + i) (q : Pin)
    (hq : ps[i]? = some q) (v : Option ℚ) :
    maxLevel (driverLevelsAux none k (updatePinsAux e v k ps)) =
      optMax (contribOpt q) (maxLevel (driverLevelsAux (some e) k ps)) := by
  induction ps generalizing k i with
  | nil => simp at hq
  | cons p ps ih =>
    have hnone : ¬(some k = (none : Option Nat)) := by simp
    cases i with
    | zero =>
      have hk : k = e := by omega
      have hpq : p = q := by simpa using hq
      subst hpq
      have hex : some k = some e := by simp [hk]
      rw [updatePinsAux_cons, if_pos hk, dla_cons, if_neg hnone,
        dla_cons, if_pos hex, dla_updatePinsAux,
        dla_excl_lt ps e (k + 1) (by omega)]
      by_cases hm : p.mode = .Output
      · rw [if_pos hm]
        cases hl : p.level with
        | none => simp [contribOpt, hm, hl, optMax]
        | some l => simp [contribOpt, hm, hl, maxLevel_cons]
      · rw [if_neg hm]
        simp [contribOpt, hm, optMax]
    | succ i =>
      have hk : ¬(k = e) := by omega
      have hex : ¬(some k = some e) := by simp; omega
      have hq2 : ps[i]? = some q := by simpa using hq
      have ihx := ih (k + 1) i (by omega) hq2
      rw [updatePinsAux_cons, if_neg hk, dla_cons, if_neg hnone, Pin.update_mode,
        dla_cons, if_neg hex]
      by_cases hm : p.mode = .Output
      · have hpu : p.update v = p := Pin.update_not_input p v (by simp [Pin.input, hm])
        rw [if_pos hm, if_pos hm, hpu]
        cases hl : p.level with
        | none => rw [ihx]
        | some l => rw [maxLevel_cons, maxLevel_cons, ihx, optMax_left_comm]
      · rw [if_neg hm, if_neg hm, ihx]

end C64

namespace C64

theorem normalize_of_ne_none (a f : Option ℚ) (h : a ≠ none) : normalize a f = a := by
  cases a with
  | none => exact absurd rfl h
  | some x => rfl

theorem Trace.calculate_true (t : Trace) (excl : Option Nat) (v : Option ℚ) :
    t.calculate excl v true = normalize (optMax v (maxLevel (t.driverLevels excl))) t.float := by
  unfold Trace.calculate
  cases hM : maxLevel (t.driverLevels excl) with
  | none => cases v <;> simp [hM, normalize, optMax]
  | some m =>
    cases v with
    | none => simp [hM, normalize, optMax]
    | some x =>
      by_cases hlt : m < x
      · simp [hM, normalize, optMax, hlt, max_eq_left hlt.le]
      · simp [hM, normalize, optMax, hlt, max_eq_right (not_lt.mp hlt)]

theorem Trace.calculate_false (t : Trace) (excl : Option Nat) (v : Option ℚ) :
    t.calculate excl v false =
      normalize (maxLevel (t.driverLevels excl)) (normalize v t.float) := by
  unfold Trace.calculate
  cases hM : maxLevel (t.driverLevels excl) <;> cases v <;> simp [hM, normalize]

theorem Trace.calculate_congr (t1 t2 : Trace) (excl : Option Nat) (v : Option ℚ) (b : Bool)
    (hd : t1.driverLevels excl = t2.driverLevels excl) (hf : t1.float = t2.float) :
    t1.calculate excl v b = t2.calculate excl v b := by
  unfold Trace.calculate
  rw [hd, hf]

theorem Trace.setLevel_driverLevels (t : Trace) (v : Option ℚ) (excl : Option Nat) :
    (t.setLevel v).driverLevels excl = t.driverLevels excl :=
  dla_map_update t.pins excl _ 0

theorem Trace.setLevel_level (t : Trace) (v : Option ℚ) :
    (t.setLevel v).level = t.calculate none v false := rfl

theorem Trace.update_level (t : Trace) (i : Nat) (v : Option ℚ) :
    (t.update i v).level = t.calculate (some i) v true := rfl

theorem Trace.update_pins (t : Trace) (i : Nat) (v : Option ℚ) :
    (t.update i v).pins = updatePinsAux i v 0 t.pins := rfl

theorem Trace.setPin_driverLevels_excl (t : Trace) (i : Nat) (q : Pin) :
    (t.setPin i q).driverLevels (some i) = t.driverLevels (some i) :=
  dla_set_excl t.pins 0 i i (by omega) q

theorem update_setPin_comm (t : Trace) (i : Nat) (q : Pin) (v : Option ℚ) :
    (t.update i v).setPin i q = (t.setPin i q).update i v := by
  unfold Trace.update Trace.setPin
  dsimp only
  rw [updatePinsAux_set_excl t.pins 0 i i (by omega) v q]
  congr 1
  exact Trace.calculate_congr t { t with pins := t.pins.set i q } (some i) v true
    (dla_set_excl t.pins 0 i i (by omega) q).symm rfl

theorem driverInv_update (T : Trace) (i : Nat) (q : Pin) (w : Option ℚ)
    (hi : T.pins[i]? = some q) (hcw : contribOpt q = w) :
    (T.update i w).driverInv := by
  intro hne
  have hmax : maxLevel ((T.update i w).driverLevels none) =
      optMax w (maxLevel (driverLevelsAux (some i) 0 T.pins)) := by
    show maxLevel (driverLevelsAux none 0 (updatePinsAux i w 0 T.pins)) = _
    rw [maxLevel_dla_updatePins T.pins 0 i i (by omega) q hi w, hcw]
  have hlev : (T.update i w).level =
      normalize (optMax w (maxLevel (driverLevelsAux (some i) 0 T.pins))) T.float := by
    rw [Trace.update_level, Trace.calculate_true]
    rfl
  have hnz : optMax w (maxLevel (driverLevelsAux (some i) 0 T.pins)) ≠ none := by
    intro h0
    exact hne ((maxLevel_eq_none_iff _).mp (hmax.trans h0))
  unfold Trace.maxDriver
  rw [hlev, hmax]
  exact normalize_of_ne_none _ _ hnz

theorem driverInv_setLevel (t : Trace) (v : Option ℚ) : (t.setLevel v).driverInv := by
  intro hne
  have hne2 : t.driverLevels none ≠ [] := by
    rwa [Trace.setLevel_driverLevels] at hne
  unfold Trace.maxDriver
  rw [Trace.setLevel_driverLevels, Trace.setLevel_level, Trace.calculate_false]
  cases hM : maxLevel (t.driverLevels none) with
  | none => exact absurd ((maxLevel_eq_none_iff _).mp hM) hne2
  | some m => rfl

end C64

namespace C64

theorem lt_length_of_getElem? (l : List Pin) (i : Nat) (a : Pin) (h : l[i]? = some a) :
    i < l.length := by
  by_contra hlt
  rw [List.getElem?_eq_none (by omega)] at h
  exact Option.noConfusion h

theorem pinSetLevel_output (t : Trace) (i : Nat) (p : Pin) (v : Option ℚ)
    (hi : t.pins[i]? = some p) (hc : p.connected = true)
    (hm : p.mode = .Output ∨ p.mode = .Bidirectional) :
    pinSetLevel t i v =
      (t.update i (normalize v p.float)).setPin i { p with level := normalize v p.float } := by
  unfold pinSetLevel
  rw [hi]
  have hcf : ¬(p.connected = false) := by simp [hc]
  dsimp only
  rw [if_neg hcf]
  rcases hm with hm | hm <;> rw [hm]

theorem pinSetLevel_input (t : Trace) (i : Nat) (p : Pin) (v : Option ℚ)
    (hi : t.pins[i]? = some p) (hc : p.connected = true) (hm : p.mode = .Input) :
    pinSetLevel t i v = t := by
  unfold pinSetLevel
  rw [hi]
  have hcf : ¬(p.connected = false) := by simp [hc]
  dsimp only
  rw [if_neg hcf, hm]

theorem pinSetLevel_noTrace (t : Trace) (i : Nat) (p : Pin) (v : Option ℚ)
    (hi : t.pins[i]? = some p) (hc : p.connected = false) :
    pinSetLevel t i v = t.setPin i { p with level := normalize v p.float } := by
  unfold pinSetLevel
  rw [hi]
  dsimp only
  rw [if_pos hc]

theorem pinSetMode_out (t : Trace) (i : Nat) (p : Pin) (m : Mode)
    (hi : t.pins[i]? = some p) (hc : p.connected = true)
    (hm : m = .Output ∨ m = .Bidirectional) :
    pinSetMode t i m = (t.setPin i { p with mode := m }).update i p.level := by
  unfold pinSetMode
  rw [hi]
  have hcf : ¬(p.connected = false) := by simp [hc]
  dsimp only
  rw [if_neg hcf]
  rcases hm with hm | hm <;> rw [hm]

theorem pinSetMode_in_recompute (t : Trace) (i : Nat) (p : Pin) (m : Mode)
    (hi : t.pins[i]? = some p) (hc : p.connected = true)
    (hm : m = .Input ∨ m = .Unconnected)
    (hrec : p.level.isSome ∧ (p.mode = .Output ∨ p.mode = .Bidirectional)) :
    pinSetMode t i m =
      (t.setPin i
        { p with mode := m,
                 level := if m = .Input then normalize t.level p.float else p.level }).update
        i none := by
  unfold pinSetMode
  rw [hi]
  have hcf : ¬(p.connected = false) := by simp [hc]
  dsimp only
  rw [if_neg hcf]
  rcases hm with hm | hm <;> rw [hm] <;> dsimp only <;>
    rw [if_pos (by simpa using hrec)]

end C64

namespace C64

theorem setPin_update_getElem (t : Trace) (i : Nat) (q : Pin) (w : Option ℚ)
    (hlen : i < t.pins.length) :
    ((t.setPin i q).update i w).pins[i]? = some q := by
  rw [Trace.update_pins]
  show (updatePinsAux i w 0 (t.pins.set i q))[i]? = some q
  rw [updatePinsAux_getElem?]
  rw [List.getElem?_set_eq_of_lt q hlen]
  simp

theorem setPin_update_driverLevels_excl (t : Trace) (i : Nat) (q : Pin) (w : Option ℚ) :
    ((t.setPin i q).update i w).driverLevels (some i) = t.driverLevels (some i) := by
  show driverLevelsAux (some i) 0 (updatePinsAux i w 0 (t.pins.set i q)) = _
  rw [dla_updatePinsAux, dla_set_excl t.pins 0 i i (by omega) q]
  rfl

theorem setPin_update_length (t : Trace) (i : Nat) (q : Pin) (w : Option ℚ) :
    ((t.setPin i q).update i w).pins.length = t.pins.length := by
  rw [Trace.update_pins]
  show (updatePinsAux i w 0 (t.pins.set i q)).length = t.pins.length
  rw [length_updatePinsAux, List.length_set]

theorem driverInv_pinSetLevel_output (t : Trace) (i : Nat) (v : Option ℚ) (p : Pin)
    (hi : t.pins[i]? = some p) (hc : p.connected = true) (hm : p.mode = .Output) :
    (pinSetLevel t i v).driverInv := by
  rw [pinSetLevel_output t i p v hi hc (Or.inl hm), update_setPin_comm]
  refine driverInv_update _ i { p with level := normalize v p.float }
    (normalize v p.float) ?_ ?_
  · show (t.pins.set i _)[i]? = some _
    exact List.getElem?_set_eq_of_lt _ (lt_length_of_getElem? _ _ _ hi)
  · simp [contribOpt, hm]

theorem driverInv_pinSetMode_output (t : Trace) (i : Nat) (p : Pin)
    (hi : t.pins[i]? = some p) (hc : p.connected = true) :
    (pinSetMode t i .Output).driverInv := by
  rw [pinSetMode_out t i p .Output hi hc (Or.inl rfl)]
  refine driverInv_update _ i { p with mode := .Output } p.level ?_ ?_
  · show (t.pins.set i _)[i]? = some _
    exact List.getElem?_set_eq_of_lt _ (lt_length_of_getElem? _ _ _ hi)
  · simp [contribOpt]

theorem driverInv_pinSetMode_withdraw (t : Trace) (i : Nat) (m : Mode) (p : Pin)
    (hi : t.pins[i]? = some p) (hc : p.connected = true)
    (hm : m = .Input ∨ m = .Unconnected) (hs : p.level.isSome = true)
    (ho : p.mode = .Output ∨ p.mode = .Bidirectional) :
    (pinSetMode t i m).driverInv := by
  rw [pinSetMode_in_recompute t i p m hi hc hm ⟨hs, ho⟩]
  refine driverInv_update _ i
    { p with mode := m,
             level := if m = .Input then normalize t.level p.float else p.level } none ?_ ?_
  · show (t.pins.set i _)[i]? = some _
    exact List.getElem?_set_eq_of_lt _ (lt_length_of_getElem? _ _ _ hi)
  · rcases hm with hm | hm <;> subst hm <;> simp [contribOpt]

end C64

namespace C64

/-- Claim C1, amended.  After every operation that recomputes the trace's
aggregate — `Trace::set_level`, `pull_up`, `pull_down`, `pull_off`, `add_pin`
of a not-yet-connected pin, `set_level` on a connected Output-mode pin,
`set_mode` into Output on a connected pin, or a `set_mode` into
Input/Unconnected by a connected pin leaving Output/Bidirectional mode with a
defined level — if at least one pin is in Output mode with a defined level,
then the trace's level equals the maximum level among those pins.  Pins in
Bidirectional mode are not scanned as drivers (`Trace::calculate` filters on
`mode == Mode::Output` only), which is what the counterexample below
exhibits against the original claim. -/
theorem c1_trace_level_is_max_of_output_drivers :
    (∀ t v, Trace.driverInv (Trace.setLevel t v)) ∧
    (∀ t, Trace.driverInv (Trace.pullUp t)) ∧
    (∀ t, Trace.driverInv (Trace.pullDown t)) ∧
    (∀ t, Trace.driverInv (Trace.pullOff t)) ∧
    (∀ t pin, pin.connected = false → Trace.driverInv (Trace.addPin t pin)) ∧
    (∀ t i v p, t.pins[i]? = some p → p.connected = true → p.mode = .Output →
      Trace.driverInv (pinSetLevel t i v)) ∧
    (∀ t i p, t.pins[i]? = some p → p.connected = true →
      Trace.driverInv (pinSetMode t i .Output)) ∧
    (∀ t i m p, t.pins[i]? = some p → p.connected = true →
      (m = .Input ∨ m = .Unconnected) → p.level.isSome = true →
      (p.mode = .Output ∨ p.mode = .Bidirectional) →
      Trace.driverInv (pinSetMode t i m)) := by
  refine ⟨driverInv_setLevel, ?_, ?_, ?_, ?_, ?_, ?_, ?_⟩
  · exact fun t => driverInv_setLevel _ _
  · exact fun t => driverInv_setLevel _ _
  · exact fun t => driverInv_setLevel _ _
  · intro t pin hc
    unfold Trace.addPin
    rw [if_pos hc]
    exact driverInv_setLevel _ _
  · exact fun t i v p hi hc hm => driverInv_pinSetLevel_output t i v p hi hc hm
  · exact fun t i p hi hc => driverInv_pinSetMode_output t i p hi hc
  · exact fun t i m p hi hc hm hs ho => driverInv_pinSetMode_withdraw t i m p hi hc hm hs ho

/-- Claim C1 witness: a concrete trace with two Output pins where, after
`set_level` on pin 0, the driver scan is non-empty and the trace's level is
its maximum. -/
theorem c1_witness :
    (pinSetLevel
        { pins := [{ number := 1, name := "A", mode := .Output, level := none, float := none,
                     connected := true, device := none },
                   { number := 2, name := "B", mode := .Output, level := some (mkRat 3 4),
                     float := none, connected := true, device := none }],
          float := none, level := some (mkRat 3 4) } 0 (some (mkRat 1 4))).driverLevels
        none ≠ [] ∧
    (pinSetLevel
        { pins := [{ number := 1, name := "A", mode := .Output, level := none, float := none,
                     connected := true, device := none },
                   { number := 2, name := "B", mode := .Output, level := some (mkRat 3 4),
                     float := none, connected := true, device := none }],
          float := none, level := some (mkRat 3 4) } 0 (some (mkRat 1 4))).level =
      (pinSetLevel
        { pins := [{ number := 1, name := "A", mode := .Output, level := none, float := none,
                     connected := true, device := none },
                   { number := 2, name := "B", mode := .Output, level := some (mkRat 3 4),
                     float := none, connected := true, device := none }],
          float := none, level := some (mkRat 3 4) } 0 (some (mkRat 1 4))).maxDriver :=
  ⟨by decide,
    c1_trace_level_is_max_of_output_drivers.2.2.2.2.2.1
      { pins := [{ number := 1, name := "A", mode := .Output, level := none, float := none,
                   connected := true, device := none },
                 { number := 2, name := "B", mode := .Output, level := some (mkRat 3 4),
                   float := none, connected := true, device := none }],
        float := none, level := some (mkRat 3 4) } 0 (some (mkRat 1 4))
      { number := 1, name := "A", mode := .Output, level := none, float := none,
        connected := true, device := none } rfl rfl rfl (by decide)⟩

/-- Claim C1 counterexample (to the claim as stated): a trace whose only pin
is in Bidirectional mode with defined level 1.0 still has level `None` after
`Trace::set_level(None)` completes, although the spec's Output/Bidirectional
driver set is non-empty with maximum 1.0.  A Bidirectional pin does not count
as a driver in the code's aggregation. -/
theorem c1_counterexample :
    (Trace.setLevel
        { pins := [{ number := 1, name := "A", mode := .Bidirectional, level := some 1,
                     float := some 1, connected := true, device := none }],
          float := none, level := none } none).specDriverLevels ≠ [] ∧
    (Trace.setLevel
        { pins := [{ number := 1, name := "A", mode := .Bidirectional, level := some 1,
                     float := some 1, connected := true, device := none }],
          float := none, level := none } none).level ≠
      maxLevel
        (Trace.setLevel
          { pins := [{ number := 1, name := "A", mode := .Bidirectional, level := some 1,
                       float := some 1, connected := true, device := none }],
            float := none, level := none } none).specDriverLevels := by
  decide

end C64

namespace C64

theorem Pin.update_changes (p : Pin) (v : Option ℚ) (h1 : p.input = true)
    (h2 : normalize v p.float ≠ p.level) :
    p.update v = Pin.notify { p with level := normalize v p.float } := by
  unfold Pin.update
  dsimp only
  rw [if_pos ⟨h1, h2⟩]

theorem Pin.update_noop (p : Pin) (v : Option ℚ) (h : normalize v p.float = p.level) :
    p.update v = p := by
  unfold Pin.update
  dsimp only
  rw [if_neg]
  intro hcon
  exact hcon.2 h

theorem Pin.update_some_level (q : Pin) (x : ℚ) (hin : q.input = true) :
    (q.update (some x)).level = some x := by
  by_cases h : normalize (some x) q.float = q.level
  · rw [Pin.update_noop q (some x) h]
    exact h.symm
  · rw [Pin.update_changes q (some x) hin h]
    rfl

/-- Claim C2, amended.  When a connected Output/Bidirectional pin `i` sets a
defined level `x`, the trace stores the aggregate computed by
`calculate(x, from_pin = true)`, but pushes the raw incoming value `x` — not
that computed aggregate — to every other pin's `update`; consequently a
connected Input-mode pin with no pull ends with level `x`, which equals the
trace's new level only when the aggregate resolves to `x`. -/
theorem c2_update_pushes_raw_value :
    ∀ (t : Trace) (i : Nat) (x : ℚ) (p : Pin) (j : Nat) (q : Pin),
      t.pins[i]? = some p → p.connected = true →
      (p.mode = .Output ∨ p.mode = .Bidirectional) →
      j ≠ i → t.pins[j]? = some q → q.mode = .Input → q.float = none →
      (pinSetLevel t i (some x)).level = t.calculate (some i) (some x) true ∧
      ((pinSetLevel t i (some x)).pins[j]?).map Pin.level = some (some x) := by
  intro t i x p j q hi hc hm hji hj hqm hqf
  rw [pinSetLevel_output t i p (some x) hi hc hm]
  constructor
  · rfl
  · show (((t.update i (normalize (some x) p.float)).pins.set i _)[j]?).map Pin.level = _
    rw [List.getElem?_set_ne (fun h => hji h.symm), Trace.update_pins,
      updatePinsAux_getElem? t.pins i (normalize (some x) p.float) 0 j, hj]
    have hij : ¬(0 + j = i) := by omega
    simp only [Option.map_some', if_neg hij]
    rw [show (normalize (some x) p.float) = some x from rfl]
    rw [Pin.update_some_level q x (by simp [Pin.input, hqm])]

/-- Claim C2 witness: concrete three-pin instantiation of the amended
statement. -/
theorem c2_witness :
    (pinSetLevel
        { pins := [{ number := 1, name := "P", mode := .Output, level := none, float := none,
                     connected := true, device := none },
                   { number := 2, name := "Q", mode := .Output, level := some (mkRat 3 4),
                     float := none, connected := true, device := none },
                   { number := 3, name := "B", mode := .Input, level := none, float := none,
                     connected := true, device := none }],
          float := none, level := some (mkRat 3 4) } 0 (some (mkRat 1 4))).level =
      Trace.calculate
        { pins := [{ number := 1, name := "P", mode := .Output, level := none, float := none,
                     connected := true, device := none },
                   { number := 2, name := "Q", mode := .Output, level := some (mkRat 3 4),
                     float := none, connected := true, device := none },
                   { number := 3, name := "B", mode := .Input, level := none, float := none,
                     connected := true, device := none }],
          float := none, level := some (mkRat 3 4) } (some 0) (some (mkRat 1 4)) true ∧
    ((pinSetLevel
        { pins := [{ number := 1, name := "P", mode := .Output, level := none, float := none,
                     connected := true, device := none },
                   { number := 2, name := "Q", mode := .Output, level := some (mkRat 3 4),
                     float := none, connected := true, device := none },
                   { number := 3, name := "B", mode := .Input, level := none, float := none,
                     connected := true, device := none }],
          float := none, level := some (mkRat 3 4) } 0 (some (mkRat 1 4))).pins[2]?).map
        Pin.level = some (some (mkRat 1 4)) :=
  c2_update_pushes_raw_value
    { pins := [{ number := 1, name := "P", mode := .Output, level := none, float := none,
                 connected := true, device := none },
               { number := 2, name := "Q", mode := .Output, level := some (mkRat 3 4),
                 float := none, connected := true, device := none },
               { number := 3, name := "B", mode := .Input, level := none, float := none,
                 connected := true, device := none }],
      float := none, level := some (mkRat 3 4) } 0 (mkRat 1 4)
    { number := 1, name := "P", mode := .Output, level := none, float := none,
      connected := true, device := none } 2
    { number := 3, name := "B", mode := .Input, level := none, float := none,
      connected := true, device := none }
    rfl rfl (Or.inl rfl) (by decide) rfl rfl rfl

/-- Claim C2 counterexample (to the claim as stated): with Output pin Q
driving 0.75, Output pin P setting 0.25 leaves the trace at 0.75, yet the
Input pin B receives the raw 0.25 — B's level differs from the trace's new
level, so the computed aggregate is not what is pushed. -/
theorem c2_counterexample :
    (pinSetLevel
        { pins := [{ number := 1, name := "P", mode := .Output, level := none, float := none,
                     connected := true, device := none },
                   { number := 2, name := "Q", mode := .Output, level := some (mkRat 3 4),
                     float := none, connected := true, device := none },
                   { number := 3, name := "B", mode := .Input, level := none, float := none,
                     connected := true, device := none }],
          float := none, level := some (mkRat 3 4) } 0 (some (mkRat 1 4))).level =
      some (mkRat 3 4) ∧
    ((pinSetLevel
        { pins := [{ number := 1, name := "P", mode := .Output, level := none, float := none,
                     connected := true, device := none },
                   { number := 2, name := "Q", mode := .Output, level := some (mkRat 3 4),
                     float := none, connected := true, device := none },
                   { number := 3, name := "B", mode := .Input, level := none, float := none,
                     connected := true, device := none }],
          float := none, level := some (mkRat 3 4) } 0 (some (mkRat 1 4))).pins[2]?).map
        Pin.level = some (some (mkRat 1 4)) ∧
    some (mkRat 1 4) ≠ some (mkRat 3 4) := by
  decide

/-- Claim C3, amended.  A pin in Input mode that is connected to a trace
ignores `set_level` entirely: the whole state is returned unchanged.  (An
Input-mode pin with no trace does take the level — see the
counterexample.) -/
theorem c3_input_pin_set_level_ignored :
    ∀ (t : Trace) (i : Nat) (p : Pin) (v : Option ℚ),
      t.pins[i]? = some p → p.connected = true → p.mode = .Input →
      pinSetLevel t i v = t := by
  intro t i p v hi hc hm
  exact pinSetLevel_input t i p v hi hc hm

/-- Claim C3 witness: a concrete connected Input pin for which `set_level`
is the identity. -/
theorem c3_witness :
    pinSetLevel
        { pins := [{ number := 1, name := "B", mode := .Input, level := some 1, float := none,
                     connected := true, device := none }],
          float := none, level := some 1 } 0 (some 0) =
      { pins := [{ number := 1, name := "B", mode := .Input, level := some 1, float := none,
                   connected := true, device := none }],
        float := none, level := some 1 } :=
  c3_input_pin_set_level_ignored
    { pins := [{ number := 1, name := "B", mode := .Input, level := some 1, float := none,
                 connected := true, device := none }],
      float := none, level := some 1 } 0
    { number := 1, name := "B", mode := .Input, level := some 1, float := none,
      connected := true, device := none } (some 0) rfl rfl rfl

/-- Claim C3 counterexample (to the claim as stated): an Input-mode pin with
no trace takes the level given to `set_level` (the `None` branch of
`Pin::set_level` normalizes unconditionally, as the repository's own
`level_no_trace` test shows), so the level is not left untouched "regardless
of whether the pin is connected to a trace". -/
theorem c3_counterexample :
    ((pinSetLevel
        { pins := [{ number := 1, name := "A", mode := .Input, level := none, float := none,
                     connected := false, device := none }],
          float := none, level := none } 0 (some 1)).pins[0]?).map Pin.level ≠
      (({ pins := [{ number := 1, name := "A", mode := .Input, level := none, float := none,
                     connected := false, device := none }],
          float := none, level := none } : Trace).pins[0]?).map Pin.level := by
  decide

/-- Claim C9: after `set_level(v)` on a connected Output- or
Bidirectional-mode pin, the pin's own stored level is `normalize(v, float)` —
the value it attempted to drive — independent of what the trace's aggregate
resolves to, so a driving pin's level and its trace's level can differ. -/
theorem c9_driving_pin_keeps_own_level :
    ∀ (t : Trace) (i : Nat) (p : Pin) (v : Option ℚ),
      t.pins[i]? = some p → p.connected = true →
      (p.mode = .Output ∨ p.mode = .Bidirectional) →
      (pinSetLevel t i v).pins[i]? = some { p with level := normalize v p.float } := by
  intro t i p v hi hc hm
  rw [pinSetLevel_output t i p v hi hc hm]
  show ((t.update i (normalize v p.float)).pins.set i _)[i]? = _
  refine List.getElem?_set_eq_of_lt _ ?_
  rw [Trace.update_pins, length_updatePinsAux]
  exact lt_length_of_getElem? _ _ _ hi

/-- Claim C9 witness: pin P drives 0.25 while another pin holds the trace at
1.0; P's own level is 0.25 and the trace's level is 1.0. -/
theorem c9_witness :
    (pinSetLevel
        { pins := [{ number := 1, name := "P", mode := .Output, level := none, float := none,
                     connected := true, device := none },
                   { number := 2, name := "Q", mode := .Output, level := some 1, float := none,
                     connected := true, device := none }],
          float := none, level := some 1 } 0 (some (mkRat 1 4))).pins[0]? =
      some { number := 1, name := "P", mode := .Output,
             level := normalize (some (mkRat 1 4)) none, float := none,
             connected := true, device := none } ∧
    (pinSetLevel
        { pins := [{ number := 1, name := "P", mode := .Output, level := none, float := none,
                     connected := true, device := none },
                   { number := 2, name := "Q", mode := .Output, level := some 1, float := none,
                     connected := true, device := none }],
          float := none, level := some 1 } 0 (some (mkRat 1 4))).level = some 1 :=
  ⟨c9_driving_pin_keeps_own_level
      { pins := [{ number := 1, name := "P", mode := .Output, level := none, float := none,
                   connected := true, device := none },
                 { number := 2, name := "Q", mode := .Output, level := some 1, float := none,
                   connected := true, device := none }],
        float := none, level := some 1 } 0
      { number := 1, name := "P", mode := .Output, level := none, float := none,
        connected := true, device := none } (some (mkRat 1 4)) rfl rfl (Or.inl rfl),
    by decide⟩

end C64

namespace C64

/-- Claim C4: with Output pins A and B on one trace, `A.set_level(0.25)`
then `B.set_level(0.75)` puts the trace at 0.75, and a subsequent
`B.set_level(None)` (no pull on B) leaves the trace at 0.25. -/
theorem c4_two_driver_max_then_withdraw :
    (pinSetLevel
        (pinSetLevel
          { pins := [{ number := 1, name := "A", mode := .Output, level := none, float := none,
                       connected := true, device := none },
                     { number := 2, name := "B", mode := .Output, level := none, float := none,
                       connected := true, device := none }],
            float := none, level := none } 0 (some (mkRat 1 4))) 1
        (some (mkRat 3 4))).level = some (mkRat 3 4) ∧
    (pinSetLevel
        (pinSetLevel
          (pinSetLevel
            { pins := [{ number := 1, name := "A", mode := .Output, level := none, float := none,
                         connected := true, device := none },
                       { number := 2, name := "B", mode := .Output, level := none, float := none,
                         connected := true, device := none }],
              float := none, level := none } 0 (some (mkRat 1 4))) 1
          (some (mkRat 3 4))) 1 none).level = some (mkRat 1 4) := by
  decide

/-- Claim C5: with pin A in Output mode (level undefined) and pin B in Input
mode (device attached) sharing a trace, `A.set_level(Some(1.0))` makes the
trace's and B's level 1.0 and delivers exactly one LevelChange event with
level 1.0 to B's device; then `A.set_mode(Input)` makes the trace's level and
B's level absent. -/
theorem c5_end_to_end :
    (pinSetLevel
        (Trace.new
          [{ number := 1, name := "A", mode := .Output, level := none, float := none,
             connected := true, device := none },
           { number := 2, name := "B", mode := .Input, level := none, float := none,
             connected := true, device := some { count := 0, lvl := none } }]) 0
        (some 1)).level = some 1 ∧
    ((pinSetLevel
        (Trace.new
          [{ number := 1, name := "A", mode := .Output, level := none, float := none,
             connected := true, device := none },
           { number := 2, name := "B", mode := .Input, level := none, float := none,
             connected := true, device := some { count := 0, lvl := none } }]) 0
        (some 1)).pins[1]?).map Pin.level = some (some 1) ∧
    ((pinSetLevel
        (Trace.new
          [{ number := 1, name := "A", mode := .Output, level := none, float := none,
             connected := true, device := none },
           { number := 2, name := "B", mode := .Input, level := none, float := none,
             connected := true, device := some { count := 0, lvl := none } }]) 0
        (some 1)).pins[1]?).map Pin.device =
      some (some { count := 1, lvl := some 1 }) ∧
    (pinSetMode
        (pinSetLevel
          (Trace.new
            [{ number := 1, name := "A", mode := .Output, level := none, float := none,
               connected := true, device := none },
             { number := 2, name := "B", mode := .Input, level := none, float := none,
               connected := true, device := some { count := 0, lvl := none } }]) 0
          (some 1)) 0 .Input).level = none ∧
    ((pinSetMode
        (pinSetLevel
          (Trace.new
            [{ number := 1, name := "A", mode := .Output, level := none, float := none,
               connected := true, device := none },
             { number := 2, name := "B", mode := .Input, level := none, float := none,
               connected := true, device := some { count := 0, lvl := none } }]) 0
          (some 1)) 0 .Input).pins[1]?).map Pin.level = some none := by
  decide

/-- Claim C10: `Trace::new` stores the supplied pins and sets both `level`
and `float` to `None` regardless of the pins' modes and levels; no aggregate
is computed at construction. -/
theorem c10_new_trace_level_absent :
    ∀ pins : List Pin, (Trace.new pins).level = none ∧ (Trace.new pins).float = none :=
  fun _ => ⟨rfl, rfl⟩

end C64

namespace C64

/-- Claim C6: for a connected Output-mode pin holding defined level V on a
trace where no other pin is scanned as a driver, `set_mode(Input)` then
`set_mode(Output)` then `set_level(Some(V))` restores the trace's level to
`Some(V)`. -/
theorem c6_mode_round_trip :
    ∀ (t : Trace) (i : Nat) (p : Pin) (V : ℚ),
      t.pins[i]? = some p → p.connected = true → p.mode = .Output → p.level = some V →
      t.driverLevels (some i) = [] →
      (pinSetLevel (pinSetMode (pinSetMode t i .Input) i .Output) i (some V)).level =
        some V := by
  intro t i p V hi hc hm hlev hdrv
  have hlen : i < t.pins.length := lt_length_of_getElem? _ _ _ hi
  have hrec : p.level.isSome ∧ (p.mode = .Output ∨ p.mode = .Bidirectional) :=
    ⟨by simp [hlev], Or.inl hm⟩
  rw [pinSetMode_in_recompute t i p .Input hi hc (Or.inl rfl) hrec]
  set p1 : Pin :=
    { p with mode := .Input,
             level := if Mode.Input = Mode.Input then normalize t.level p.float else p.level }
    with hp1
  set T1 : Trace := (t.setPin i p1).update i none with hT1
  have hT1pins : T1.pins[i]? = some p1 := setPin_update_getElem t i p1 none hlen
  have hT1drv : T1.driverLevels (some i) = [] := by
    rw [hT1, setPin_update_driverLevels_excl]
    exact hdrv
  have hT1len : i < T1.pins.length := by
    rw [hT1, setPin_update_length]
    exact hlen
  rw [pinSetMode_out T1 i p1 .Output hT1pins hc (Or.inl rfl)]
  set p2 : Pin := { p1 with mode := .Output } with hp2
  set T2 : Trace := (T1.setPin i p2).update i p1.level with hT2
  have hT2pins : T2.pins[i]? = some p2 := setPin_update_getElem T1 i p2 p1.level hT1len
  have hT2drv : T2.driverLevels (some i) = [] := by
    rw [hT2, setPin_update_driverLevels_excl]
    exact hT1drv
  rw [pinSetLevel_output T2 i p2 (some V) hT2pins hc (Or.inl rfl)]
  show (T2.update i (normalize (some V) p2.float)).level = some V
  rw [show normalize (some V) p2.float = some V from rfl, Trace.update_level,
    Trace.calculate_true]
  show normalize (optMax (some V) (maxLevel (T2.driverLevels (some i)))) T2.float = some V
  rw [hT2drv]
  rfl

/-- Claim C6 witness: concrete two-pin instantiation of the round trip. -/
theorem c6_witness :
    (pinSetLevel
        (pinSetMode
          (pinSetMode
            { pins := [{ number := 1, name := "P", mode := .Output, level := some (mkRat 3 4),
                         float := none, connected := true, device := none },
                       { number := 2, name := "B", mode := .Input, level := some (mkRat 3 4),
                         float := none, connected := true, device := none }],
              float := none, level := some (mkRat 3 4) } 0 .Input) 0 .Output) 0
        (some (mkRat 3 4))).level = some (mkRat 3 4) :=
  c6_mode_round_trip
    { pins := [{ number := 1, name := "P", mode := .Output, level := some (mkRat 3 4),
                 float := none, connected := true, device := none },
               { number := 2, name := "B", mode := .Input, level := some (mkRat 3 4),
                 float := none, connected := true, device := none }],
      float := none, level := some (mkRat 3 4) } 0
    { number := 1, name := "P", mode := .Output, level := some (mkRat 3 4),
      float := none, connected := true, device := none } (mkRat 3 4) rfl rfl rfl rfl
    (by decide)

end C64

namespace C64

theorem pinSetLevel_unconnectedMode (t : Trace) (i : Nat) (p : Pin) (v : Option ℚ)
    (hi : t.pins[i]? = some p) (hc : p.connected = true) (hm : p.mode = .Unconnected) :
    pinSetLevel t i v = t.setPin i { p with level := normalize v p.float } := by
  unfold pinSetLevel
  rw [hi]
  have hcf : ¬(p.connected = false) := by simp [hc]
  dsimp only
  rw [if_neg hcf, hm]

theorem pinPullUp_eq (t : Trace) (i : Nat) (p : Pin) (hi : t.pins[i]? = some p) :
    pinPullUp t i = t.setPin i { p with float := some 1, level := normalize p.level (some 1) } := by
  unfold pinPullUp
  rw [hi]
  rfl

theorem pinPullDown_eq (t : Trace) (i : Nat) (p : Pin) (hi : t.pins[i]? = some p) :
    pinPullDown t i = t.setPin i { p with float := some 0, level := normalize p.level (some 0) } := by
  unfold pinPullDown
  rw [hi]
  rfl

theorem pinPullOff_eq (t : Trace) (i : Nat) (p : Pin) (hi : t.pins[i]? = some p) :
    pinPullOff t i = t.setPin i { p with float := none, level := normalize p.level none } := by
  unfold pinPullOff
  rw [hi]
  rfl

theorem pin_pull_then_float (t : Trace) (i : Nat) (p : Pin) (f : Option ℚ)
    (hi : t.pins[i]? = some p) (hnc : ¬(p.mode = .Input ∧ p.connected = true)) :
    ((pinSetLevel (t.setPin i { p with float := f, level := normalize p.level f }) i
        none).pins[i]?).map Pin.level = some f := by
  have hlen : i < t.pins.length := lt_length_of_getElem? _ _ _ hi
  set q : Pin := { p with float := f, level := normalize p.level f } with hqdef
  have hq : (t.setPin i q).pins[i]? = some q := by
    show (t.pins.set i q)[i]? = some q
    exact List.getElem?_set_eq_of_lt q hlen
  have hlen2 : i < (t.setPin i q).pins.length := by
    show i < (t.pins.set i q).length
    rw [List.length_set]
    exact hlen
  by_cases hc : p.connected = true
  · cases hmode : p.mode with
    | Input => exact absurd ⟨hmode, hc⟩ hnc
    | Unconnected =>
      rw [pinSetLevel_unconnectedMode _ i q none hq hc hmode]
      show ((((t.setPin i q).pins.set i _))[i]?).map Pin.level = some f
      rw [List.getElem?_set_eq_of_lt _ hlen2]
      rfl
    | Output =>
      rw [pinSetLevel_output _ i q none hq hc (Or.inl hmode)]
      show (((((t.setPin i q).update i (normalize none q.float)).pins.set i _))[i]?).map
          Pin.level = some f
      rw [List.getElem?_set_eq_of_lt _ (by rw [setPin_update_length]; exact hlen)]
      rfl
    | Bidirectional =>
      rw [pinSetLevel_output _ i q none hq hc (Or.inr hmode)]
      show (((((t.setPin i q).update i (normalize none q.float)).pins.set i _))[i]?).map
          Pin.level = some f
      rw [List.getElem?_set_eq_of_lt _ (by rw [setPin_update_length]; exact hlen)]
      rfl
  · have hcf : p.connected = false := by
      revert hc
      cases p.connected <;> simp
    rw [pinSetLevel_noTrace _ i q none hq hcf]
    show ((((t.setPin i q).pins.set i _))[i]?).map Pin.level = some f
    rw [List.getElem?_set_eq_of_lt _ hlen2]
    rfl

theorem setLevel_none_of_no_drivers (T : Trace) (h : T.driverLevels none = []) :
    (T.setLevel none).level = T.float := by
  rw [Trace.setLevel_level, Trace.calculate_false, h]
  rfl

theorem trace_pull_then_float (t : Trace) (f : Option ℚ)
    (hdrv : t.driverLevels none = []) :
    (Trace.setLevel (Trace.setLevel { t with float := f }
        ({ t with float := f } : Trace).level) none).level = f := by
  have h1 : (Trace.setLevel { t with float := f }
      ({ t with float := f } : Trace).level).driverLevels none = [] := by
    rw [Trace.setLevel_driverLevels]
    exact hdrv
  rw [setLevel_none_of_no_drivers _ h1]
  rfl

end C64

namespace C64

/-- Claim C7, amended.  For every pin on which `set_level` takes effect
(that is, every pin except one in Input mode connected to a trace):
`pull_up` then `set_level(None)` yields level `Some(1.0)`, `pull_down` yields
`Some(0.0)`, and `pull_off` yields `None`.  For every trace with no
Output-mode pin holding a defined level, the trace's `pull_up` / `pull_down`
/ `pull_off` followed by `set_level(None)` yields `Some(1.0)` / `Some(0.0)` /
`None` respectively (the no-driver proviso is needed for all three trace
cases, not only for `pull_off`). -/
theorem c7_pull_defaults :
    (∀ t i p, t.pins[i]? = some p → ¬(p.mode = .Input ∧ p.connected = true) →
      ((pinSetLevel (pinPullUp t i) i none).pins[i]?).map Pin.level = some (some 1)) ∧
    (∀ t i p, t.pins[i]? = some p → ¬(p.mode = .Input ∧ p.connected = true) →
      ((pinSetLevel (pinPullDown t i) i none).pins[i]?).map Pin.level = some (some 0)) ∧
    (∀ t i p, t.pins[i]? = some p → ¬(p.mode = .Input ∧ p.connected = true) →
      ((pinSetLevel (pinPullOff t i) i none).pins[i]?).map Pin.level = some none) ∧
    (∀ t : Trace, t.driverLevels none = [] →
      (Trace.setLevel (Trace.pullUp t) none).level = some 1) ∧
    (∀ t : Trace, t.driverLevels none = [] →
      (Trace.setLevel (Trace.pullDown t) none).level = some 0) ∧
    (∀ t : Trace, t.driverLevels none = [] →
      (Trace.setLevel (Trace.pullOff t) none).level = none) := by
  refine ⟨?_, ?_, ?_, ?_, ?_, ?_⟩
  · intro t i p hi hnc
    rw [pinPullUp_eq t i p hi]
    exact pin_pull_then_float t i p (some 1) hi hnc
  · intro t i p hi hnc
    rw [pinPullDown_eq t i p hi]
    exact pin_pull_then_float t i p (some 0) hi hnc
  · intro t i p hi hnc
    rw [pinPullOff_eq t i p hi]
    exact pin_pull_then_float t i p none hi hnc
  · intro t hdrv
    exact trace_pull_then_float t (some 1) hdrv
  · intro t hdrv
    exact trace_pull_then_float t (some 0) hdrv
  · intro t hdrv
    exact trace_pull_then_float t none hdrv

/-- Claim C7 witness: concrete instantiations of the pin pull-up case and
the trace pull-up case. -/
theorem c7_witness :
    ((pinSetLevel
        (pinPullUp
          { pins := [{ number := 1, name := "P", mode := .Output, level := some 0,
                       float := none, connected := true, device := none }],
            float := none, level := some 0 } 0) 0 none).pins[0]?).map Pin.level =
      some (some 1) ∧
    (Trace.setLevel
        (Trace.pullUp
          { pins := [{ number := 1, name := "B", mode := .Input, level := some 0,
                       float := none, connected := true, device := none }],
            float := none, level := some 0 }) none).level = some 1 :=
  ⟨c7_pull_defaults.1
      { pins := [{ number := 1, name := "P", mode := .Output, level := some 0,
                   float := none, connected := true, device := none }],
        float := none, level := some 0 } 0
      { number := 1, name := "P", mode := .Output, level := some 0,
        float := none, connected := true, device := none } rfl (by decide),
    c7_pull_defaults.2.2.2.1
      { pins := [{ number := 1, name := "B", mode := .Input, level := some 0,
                   float := none, connected := true, device := none }],
        float := none, level := some 0 } (by decide)⟩

/-- Claim C7 counterexample (to the claim as stated): a trace-connected
Input-mode pin holding 0.0 still holds 0.0 — not 1.0 — after `pull_up`
followed by `set_level(None)` (the set is ignored); and a trace driven at 0.0
by an Output pin stays at 0.0 — not 1.0 — after its `pull_up` and
`set_level(None)`. -/
theorem c7_counterexample :
    ((pinSetLevel
        (pinPullUp
          { pins := [{ number := 1, name := "B", mode := .Input, level := some 0,
                       float := none, connected := true, device := none }],
            float := none, level := some 0 } 0) 0 none).pins[0]?).map Pin.level =
      some (some 0) ∧
    some (0 : ℚ) ≠ some (1 : ℚ) ∧
    (Trace.setLevel
        (Trace.pullUp
          { pins := [{ number := 1, name := "P", mode := .Output, level := some 0,
                       float := none, connected := true, device := none }],
            float := none, level := some 0 }) none).level = some 0 := by
  decide

end C64

namespace C64

/-- Claim C8: on a trace holding Output pin P and observed Input pin B,
calling `P.set_level(Some(V))` twice in succession, with `Some(V)` different
from B's prior level, increments B's device count exactly once and records
level V — the second call changes nothing for B. -/
theorem c8_idempotent_notification :
    ∀ (P B : Pin) (tf tl : Option ℚ) (V : ℚ) (d0 : Observer),
      P.mode = .Output → P.connected = true →
      B.mode = .Input → B.device = some d0 → some V ≠ B.level →
      ((pinSetLevel (pinSetLevel { pins := [P, B], float := tf, level := tl } 0 (some V))
          0 (some V)).pins[1]?).map Pin.device =
        some (some { count := d0.count + 1, lvl := some V }) := by
  intro P B tf tl V d0 hPm hPc hBm hBd hne
  have hBin : B.input = true := by simp [Pin.input, hBm]
  have hBup : B.update (some V) = Pin.notify { B with level := some V } :=
    Pin.update_changes B (some V) hBin hne
  set t0 : Trace := { pins := [P, B], float := tf, level := tl } with ht0
  have ht00 : t0.pins[0]? = some P := rfl
  rw [pinSetLevel_output t0 0 P (some V) ht00 hPc (Or.inl hPm)]
  rw [show normalize (some V) P.float = some V from rfl]
  set P1 : Pin := { P with level := some V } with hP1
  have h11 : ((t0.update 0 (some V)).setPin 0 P1).pins[1]? =
      some (Pin.notify { B with level := some V }) := by
    show ((t0.update 0 (some V)).pins.set 0 P1)[1]? = _
    rw [List.getElem?_set_ne (by omega : (0 : Nat) ≠ 1), Trace.update_pins,
      updatePinsAux_getElem? t0.pins 0 (some V) 0 1,
      show t0.pins[1]? = some B from rfl, Option.map_some',
      if_neg (by omega : ¬(0 + 1 = 0)), hBup]
  have h10 : ((t0.update 0 (some V)).setPin 0 P1).pins[0]? = some P1 := by
    show ((t0.update 0 (some V)).pins.set 0 P1)[0]? = some P1
    refine List.getElem?_set_eq_of_lt _ ?_
    rw [Trace.update_pins, length_updatePinsAux]
    simp [ht0]
  have hP1c : P1.connected = true := hPc
  have hP1m : P1.mode = .Output := hPm
  rw [pinSetLevel_output _ 0 P1 (some V) h10 hP1c (Or.inl hP1m)]
  rw [show normalize (some V) P1.float = some V from rfl]
  show ((((t0.update 0 (some V)).setPin 0 P1).update 0 (some V)).pins.set 0
      { P1 with level := some V })[1]?.map Pin.device = _
  rw [List.getElem?_set_ne (by omega : (0 : Nat) ≠ 1), Trace.update_pins,
    updatePinsAux_getElem? _ 0 (some V) 0 1, h11, Option.map_some',
    if_neg (by omega : ¬(0 + 1 = 0)),
    Pin.update_noop (Pin.notify { B with level := some V }) (some V) rfl,
    Option.map_some']
  rw [show (Pin.notify { B with level := some V }).device =
      Option.map (fun d => ({ count := d.count + 1, lvl := some V } : Observer)) B.device
    from rfl, hBd]
  rfl

/-- Claim C8 witness: concrete instantiation with V = 1.0 and B previously
floating. -/
theorem c8_witness :
    some (1 : ℚ) ≠ (none : Option ℚ) ∧
    ((pinSetLevel
        (pinSetLevel
          { pins := [{ number := 1, name := "A", mode := .Output, level := none,
                       float := none, connected := true, device := none },
                     { number := 2, name := "B", mode := .Input, level := none,
                       float := none, connected := true,
                       device := some { count := 0, lvl := none } }],
            float := none, level := none } 0 (some 1)) 0 (some 1)).pins[1]?).map
      Pin.device = some (some { count := 0 + 1, lvl := some 1 }) :=
  ⟨by decide,
    c8_idempotent_notification
      { number := 1, name := "A", mode := .Output, level := none, float := none,
        connected := true, device := none }
      { number := 2, name := "B", mode := .Input, level := none, float := none,
        connected := true, device := some { count := 0, lvl := none } }
      none none 1 { count := 0, lvl := none } rfl rfl rfl rfl (by decide)⟩

end C64
